import Mathlib

/-!
Verification of the market-data analytics core of the MarketExplorer
repository (src/services/binanceApi.ts, src/components/MarketSeasonalityExplorer.tsx,
src/utils/dataScenarios.ts) against its natural-language specification.

Modelling conventions:
* JS numbers are modelled as exact rationals (`ℚ`).  `Math.sqrt` is modelled
  as `Real.sqrt` (the only irrational operation in the code), so the anomaly
  detector works over `ℝ`.  Rational division is total with `x / 0 = 0`
  where IEEE arithmetic would produce `Infinity`/`NaN`; no verified claim
  depends on the value produced at such a point, only on the fact that the
  formula is applied without a special case.
* `parseFloat` is modelled by letting the candle structure carry the parsed
  rational values directly.
* JS `Date` calendar fields (`getDay`, `getMonth`, `getFullYear`) are
  modelled in UTC via the standard civil-from-days algorithm; the browser's
  local-time offset is not modelled.  No verified claim refers to the
  calendar fields.
* Presentation-only string fields built with `toFixed` (pattern `id` and
  `description`) are elided from the `HistoricalPattern` structure; the
  pattern `name` string literals are kept.
-/

namespace MarketExplorer

/-! ### Calendar model (UTC) for JS `Date` fields used by `processKlineData` -/

def msPerDay : Int := 86400000

/-- Day number since the Unix epoch (floor of ms / 86400000). -/
def jsDayNumber (ms : Int) : Int := Int.fdiv ms msPerDay

/-- JS `Date#getDay` modelled in UTC: 0 = Sunday .. 6 = Saturday.
Day 0 (1970-01-01) was a Thursday (4). -/
def jsGetDay (ms : Int) : Nat := ((jsDayNumber ms + 4).emod 7).toNat

/-- Civil date (year, month 1-12, day 1-31) from a day number
(Howard Hinnant's `civil_from_days`, with floor division). -/
def civilFromDays (z0 : Int) : Int × Int × Int :=
  let z := z0 + 719468
  let era := Int.fdiv z 146097
  let doe := z - era * 146097
  let yoe := Int.fdiv (doe - Int.fdiv doe 1460 + Int.fdiv doe 36524 - Int.fdiv doe 146096) 365
  let y := yoe + era * 400
  let doy := doe - (365 * yoe + Int.fdiv yoe 4 - Int.fdiv yoe 100)
  let mp := Int.fdiv (5 * doy + 2) 153
  let d := doy - Int.fdiv (153 * mp + 2) 5 + 1
  let m := if mp < 10 then mp + 3 else mp - 9
  (if m ≤ 2 then y + 1 else y, m, d)

/-- Day number from a civil date (Hinnant's `days_from_civil`). -/
def daysFromCivil (y m d : Int) : Int :=
  let y' := if m ≤ 2 then y - 1 else y
  let era := Int.fdiv y' 400
  let yoe := y' - era * 400
  let doy := Int.fdiv (153 * (m + (if m > 2 then -3 else 9)) + 2) 5 + d - 1
  let doe := yoe * 365 + Int.fdiv yoe 4 - Int.fdiv yoe 100 + doy
  era * 146097 + doe - 719468

/-- JS `Date#getFullYear`, modelled in UTC. -/
def jsGetFullYear (ms : Int) : Int := (civilFromDays (jsDayNumber ms)).1

/-- One-based month of a timestamp (JS `getMonth() + 1`), modelled in UTC. -/
def jsMonthOfYear (ms : Int) : Int := (civilFromDays (jsDayNumber ms)).2.1

/-- `Math.ceil (a / b)` for integers, b > 0. -/
def intCeilDiv (a b : Int) : Int := -Int.fdiv (-a) b

/-- `BinanceApiService.getWeekOfYear` (binanceApi.ts lines 204-208):
days since Jan 1 of the timestamp's year, then
`ceil((days + startOfYear.getDay() + 1) / 7)`. -/
def getWeekOfYear (ms : Int) : Int :=
  let startOfYear := daysFromCivil (jsGetFullYear ms) 1 1 * msPerDay
  let days := Int.fdiv (ms - startOfYear) msPerDay
  intCeilDiv (days + (jsGetDay startOfYear : Int) + 1) 7

/-! ### Data model (src/types/index.ts) -/

/-- `KlineData`, with the price/volume strings replaced by the rationals
that `parseFloat` produces from them. -/
structure KlineData where
  openTime : Int
  «open» : ℚ
  high : ℚ
  low : ℚ
  close : ℚ
  volume : ℚ
  closeTime : Int
  quoteAssetVolume : ℚ
  numberOfTrades : Nat
  takerBuyBaseAssetVolume : ℚ
  takerBuyQuoteAssetVolume : ℚ
  deriving Repr, DecidableEq, Inhabited

/-- `ProcessedDayData` (the spec's DerivedRecord); `date` is the epoch-ms
timestamp of the JS `Date`. -/
structure ProcessedDayData where
  date : Int
  «open» : ℚ
  high : ℚ
  low : ℚ
  close : ℚ
  volume : ℚ
  volatility : ℚ
  liquidity : ℚ
  performance : ℚ
  dayOfWeek : Nat
  weekOfYear : Int
  monthOfYear : Int
  deriving Repr, DecidableEq, Inhabited

/-! ### MetricsCalculator: `processKlineData` (binanceApi.ts lines 164-197) -/

/-- Body of the `map` in `processKlineData` (the `index` parameter of the
source lambda is unused there).  Note that `high` and `low` are taken
verbatim from the parsed candle: there is no max/min clamping here. -/
def processDay (kline : KlineData) : ProcessedDayData :=
  let «open» := kline.«open»
  let high := kline.high
  let low := kline.low
  let close := kline.close
  let volume := kline.volume
  let volatility := ((high - low) / «open») * 100
  let performance := ((close - «open») / «open») * 100
  let liquidity := min (volume / 1000000) 1
  { date := kline.openTime
    «open» := «open», high := high, low := low, close := close, volume := volume
    volatility := volatility, performance := performance, liquidity := liquidity
    dayOfWeek := jsGetDay kline.openTime
    weekOfYear := getWeekOfYear kline.openTime
    monthOfYear := jsMonthOfYear kline.openTime }

/-- `BinanceApiService.processKlineData`. -/
def processKlineData (klineData : List KlineData) : List ProcessedDayData :=
  klineData.map processDay

/-! ### IndicatorEngine: `calculateTechnicalIndicators` (binanceApi.ts lines 215-260) -/

/-- A `ProcessedDayData` together with the optional indicator fields that the
source attaches by object spread (`{...day, ...indicators}`); an absent
(JS `undefined`) indicator is `none`. -/
structure IndicatedDayData where
  day : ProcessedDayData
  sma20 : Option ℚ
  sma50 : Option ℚ
  rsi : Option ℚ
  deriving Repr, DecidableEq, Inhabited

/-- A record with no indicators attached. -/
def toIndicated (day : ProcessedDayData) : IndicatedDayData :=
  { day := day, sma20 := none, sma50 := none, rsi := none }

/-- The accumulation step of the source's RSI loop: a positive
close-to-close change is added to the gains, otherwise its absolute value
is added to the losses. -/
def rsiStep (gl : ℚ × ℚ) (change : ℚ) : ℚ × ℚ :=
  if change > 0 then (gl.1 + change, gl.2) else (gl.1, gl.2 + |change|)

/-- Body of the `map` in `calculateTechnicalIndicators` for one position
`index`.  `slice (index - w + 1) (index + 1)` is rendered as
`(data.drop (index - w + 1)).take w`, and the `for` loop over consecutive
close-to-close changes as a fold over `zipWith` of the window with its
tail. -/
def indicatorsAt (data : List ProcessedDayData) (index : Nat) (day : ProcessedDayData) :
    IndicatedDayData :=
  let sma20 : Option ℚ :=
    if index ≥ 19 then
      let sma20Data := (data.drop (index - 19)).take 20
      some ((sma20Data.foldl (fun sum d => sum + d.close) 0) / 20)
    else none
  let sma50 : Option ℚ :=
    if index ≥ 49 then
      let sma50Data := (data.drop (index - 49)).take 50
      some ((sma50Data.foldl (fun sum d => sum + d.close) 0) / 50)
    else none
  let rsi : Option ℚ :=
    if index ≥ 14 then
      let rsiData := (data.drop (index - 14)).take 15
      let changes := List.zipWith (fun b a => b.close - a.close) rsiData.tail rsiData
      let gl := changes.foldl rsiStep (0, 0)
      let avgGain := gl.1 / 14
      let avgLoss := gl.2 / 14
      let rs := avgGain / avgLoss
      some (100 - 100 / (1 + rs))
    else none
  { day := day, sma20 := sma20, sma50 := sma50, rsi := rsi }

/-- `BinanceApiService.calculateTechnicalIndicators`.  Below 20 records the
source returns its input array unchanged (so no record carries an indicator
field); that branch is rendered as mapping `toIndicated`. -/
def calculateTechnicalIndicators (data : List ProcessedDayData) : List IndicatedDayData :=
  if data.length < 20 then data.map toIndicated
  else data.enum.map (fun p => indicatorsAt data p.1 p.2)

/-! ### PatternDetector (binanceApi.ts lines 342-566) -/

inductive PatternType where
  | seasonal | cyclical | anomaly | trend
  deriving Repr, DecidableEq

/-- The `metrics` snapshot of a pattern. -/
structure PatternMetrics where
  volatility : ℚ
  performance : ℚ
  volume : ℚ
  deriving Repr, DecidableEq, Inhabited

/-- `HistoricalPattern`.  The presentation-only `id` and `description`
strings (built with `toFixed`) are elided; `confidence` lives in `ℝ`
because the anomaly pass divides by a threshold containing `Math.sqrt`. -/
structure HistoricalPattern where
  type : PatternType
  name : String
  confidence : ℝ
  startDate : Int
  endDate : Int
  metrics : PatternMetrics

/-- `getDayName` (binanceApi.ts lines 548-551). -/
def getDayName (day : Nat) : String :=
  ["Sunday", "Monday", "Tuesday", "Wednesday", "Thursday", "Friday", "Saturday"].getD day "Unknown"

/-- `calculateVariance` (binanceApi.ts lines 526-530): population variance. -/
def calculateVariance (values : List ℚ) : ℚ :=
  let mean := values.foldl (fun sum val => sum + val) 0 / (values.length : ℚ)
  let squaredDiffs := values.map (fun val => (val - mean) ^ 2)
  squaredDiffs.foldl (fun sum diff => sum + diff) 0 / (values.length : ℚ)

/-- `detectSeasonalPatterns` (binanceApi.ts lines 342-379).  The JS `Map`
iterates its keys in first-insertion order, i.e. the order of first
occurrence of each `dayOfWeek` in the data; the per-key body is a
`filterMap` over those keys. -/
def detectSeasonalPatterns (data : List ProcessedDayData) : List HistoricalPattern :=
  let keys := (data.map (·.dayOfWeek)).eraseDups
  keys.filterMap (fun dayOfWeek =>
    let days := data.filter (fun d => d.dayOfWeek = dayOfWeek)
    if days.length < 5 then none
    else
      let avgVolatility := days.foldl (fun sum d => sum + d.volatility) 0 / (days.length : ℚ)
      let avgPerformance := days.foldl (fun sum d => sum + d.performance) 0 / (days.length : ℚ)
      let avgVolume := days.foldl (fun sum d => sum + d.volume) 0 / (days.length : ℚ)
      if avgVolatility > 1.5 ∨ avgVolatility < 0.3 then
        some { type := .seasonal
               name := "High volatility on " ++ getDayName dayOfWeek
               confidence := ((min (avgVolatility / 2) 1 : ℚ) : ℝ)
               startDate := (days.headI).date
               endDate := (days.getLastD default).date
               metrics := { volatility := avgVolatility, performance := avgPerformance,
                            volume := avgVolume } }
      else none)

/-- `detectCyclicalPatterns` (binanceApi.ts lines 387-413). -/
def detectCyclicalPatterns (data : List ProcessedDayData) : List HistoricalPattern :=
  if data.length < 30 then []
  else
    let volatilityValues := data.map (·.volatility)
    let volatilityVariance := calculateVariance volatilityValues
    if volatilityVariance > 0.5 then
      let avgVolatility :=
        volatilityValues.foldl (fun sum v => sum + v) 0 / (volatilityValues.length : ℚ)
      [{ type := .cyclical
         name := "Volatility Cycles Detected"
         confidence := ((min volatilityVariance 1 : ℚ) : ℝ)
         startDate := (data.headI).date
         endDate := (data.getLastD default).date
         metrics := { volatility := avgVolatility, performance := 0, volume := 0 } }]
    else []

/-- Mean volatility of a series (`avgVolatility` local of `detectAnomalies`,
binanceApi.ts line 431). -/
def avgVolatilityOf (data : List ProcessedDayData) : ℚ :=
  let volatilities := data.map (·.volatility)
  volatilities.foldl (fun sum v => sum + v) 0 / (volatilities.length : ℚ)

/-- Mean volume of a series (`avgVolume` local of `detectAnomalies`,
binanceApi.ts line 435). -/
def avgVolumeOf (data : List ProcessedDayData) : ℚ :=
  let volumes := data.map (·.volume)
  volumes.foldl (fun sum v => sum + v) 0 / (volumes.length : ℚ)

/-- `volatilityThreshold` local of `detectAnomalies` (binanceApi.ts
lines 432-433): mean + 2 × population standard deviation. -/
noncomputable def volatilityThresholdOf (data : List ProcessedDayData) : ℝ :=
  (avgVolatilityOf data : ℝ) + 2 * Real.sqrt ((calculateVariance (data.map (·.volatility)) : ℚ) : ℝ)

/-- `volumeThreshold` local of `detectAnomalies` (binanceApi.ts
lines 436-437). -/
noncomputable def volumeThresholdOf (data : List ProcessedDayData) : ℝ :=
  (avgVolumeOf data : ℝ) + 2 * Real.sqrt ((calculateVariance (data.map (·.volume)) : ℚ) : ℝ)

/-- The two pushes of the per-day body of `detectAnomalies`
(binanceApi.ts lines 441-467); `performance ?? 0` and `volume ?? 0` are
the fields themselves since the model's fields are always present. -/
noncomputable def anomalyPatternsFor (volatilityThreshold volumeThreshold : ℝ)
    (day : ProcessedDayData) : List HistoricalPattern :=
  (if (day.volatility : ℝ) > volatilityThreshold then
      [{ type := .anomaly
         name := "Volatility Spike"
         confidence := min ((day.volatility : ℝ) / volatilityThreshold) 1
         startDate := day.date
         endDate := day.date
         metrics := { volatility := day.volatility, performance := day.performance,
                      volume := day.volume } }]
    else []) ++
  (if (day.volume : ℝ) > volumeThreshold then
      [{ type := .anomaly
         name := "Volume Spike"
         confidence := min ((day.volume : ℝ) / volumeThreshold) 1
         startDate := day.date
         endDate := day.date
         metrics := { volatility := day.volatility, performance := day.performance,
                      volume := day.volume } }]
    else [])

/-- `detectAnomalies` (binanceApi.ts lines 421-470). -/
noncomputable def detectAnomalies (data : List ProcessedDayData) : List HistoricalPattern :=
  if data.length < 10 then []
  else data.flatMap (anomalyPatternsFor (volatilityThresholdOf data) (volumeThresholdOf data))

/-- Capitalization of the trend-type string
(`trendType.charAt(0).toUpperCase() + trendType.slice(1)`). -/
def capitalizeFirst (s : String) : String :=
  match s.toList with
  | [] => ""
  | c :: cs => String.mk (c.toUpper :: cs)

/-- `detectTrends` (binanceApi.ts lines 478-519). -/
def detectTrends (data : List ProcessedDayData) : List HistoricalPattern :=
  if data.length < 20 then []
  else
    let prices := data.map (·.close)
    let firstPrice := prices.headI
    let lastPrice := prices.getLastD 0
    let priceChange := ((lastPrice - firstPrice) / firstPrice) * 100
    let trendType : String :=
      if priceChange > 5 then "uptrend"
      else if priceChange < -5 then "downtrend"
      else "neutral"
    let confidence : ℚ :=
      if priceChange > 5 then min (|priceChange| / 20) 1
      else if priceChange < -5 then min (|priceChange| / 20) 1
      else 0
    if confidence > 0.3 then
      [{ type := .trend
         name := capitalizeFirst trendType ++ " Detected"
         confidence := (confidence : ℝ)
         startDate := (data.headI).date
         endDate := (data.getLastD default).date
         metrics := { volatility := data.foldl (fun sum d => sum + d.volatility) 0 / (data.length : ℚ)
                      performance := priceChange
                      volume := data.foldl (fun sum d => sum + d.volume) 0 / (data.length : ℚ) } }]
    else []

/-- `PatternDetection`. -/
structure PatternDetection where
  seasonalPatterns : List HistoricalPattern
  cyclicalPatterns : List HistoricalPattern
  anomalies : List HistoricalPattern
  trends : List HistoricalPattern

/-- `detectAllPatterns` (binanceApi.ts lines 559-566). -/
noncomputable def detectAllPatterns (data : List ProcessedDayData) : PatternDetection :=
  { seasonalPatterns := detectSeasonalPatterns data
    cyclicalPatterns := detectCyclicalPatterns data
    anomalies := detectAnomalies data
    trends := detectTrends data }

/-! ### AlertEvaluator: `checkAlerts` / `triggerAlert`
(MarketSeasonalityExplorer.tsx lines 205-209 and 328-370) -/

inductive AlertType where
  | volatility | performance | volume | price
  deriving Repr, DecidableEq, Inhabited

inductive AlertCondition where
  | above | below | equals
  deriving Repr, DecidableEq, Inhabited

/-- `Alert` (src/types/index.ts); timestamps are epoch ms. -/
structure Alert where
  id : String
  type : AlertType
  condition : AlertCondition
  threshold : ℚ
  symbol : String
  timeframe : String
  isActive : Bool
  createdAt : Int
  triggeredAt : Option Int
  message : String
  deriving Repr, DecidableEq, Inhabited

/-- The `currentValue` extracted from the latest record by the `switch` on
`alert.type` in `checkAlerts`. -/
def currentValue (type : AlertType) (latestData : ProcessedDayData) : ℚ :=
  match type with
  | .volatility => latestData.volatility
  | .performance => latestData.performance
  | .volume => latestData.volume
  | .price => latestData.close

/-- The `switch` on `alert.condition` in `checkAlerts`: `above` is strict
`>`, `below` is strict `<`, `equals` is `|value − threshold| < 0.01`. -/
def shouldTrigger (condition : AlertCondition) (currentValue threshold : ℚ) : Bool :=
  match condition with
  | .above => currentValue > threshold
  | .below => currentValue < threshold
  | .equals => |currentValue - threshold| < 1/100

/-- An alert fires in one `checkAlerts` sweep iff it is active, its
condition holds on the latest record, and it has no `triggeredAt` stamp
(`if (shouldTrigger && !alert.triggeredAt) triggerAlert(alert)` after the
`if (!alert.isActive) return` guard). -/
def alertFires (latestData : ProcessedDayData) (alert : Alert) : Bool :=
  alert.isActive &&
    shouldTrigger alert.condition (currentValue alert.type latestData) alert.threshold &&
    alert.triggeredAt == none

/-- State effect of `triggerAlert` (MarketSeasonalityExplorer.tsx
lines 205-209): stamp `triggeredAt` on every alert in the state with the
firing alert's id (`new Date()` is the `now` parameter). -/
def triggerAlert (now : Int) (alert : Alert) (alerts : List Alert) : List Alert :=
  alerts.map (fun a => if a.id = alert.id then { a with triggeredAt := some now } else a)

/-- One `checkAlerts` sweep over the current alert list against the latest
record: returns the new alert state (all firing alerts stamped via
`triggerAlert`) and the list of alerts that fired (those for which
`triggerAlert` was invoked).  The firing decisions all read the pre-sweep
snapshot, as the source's `forEach` closure does. -/
def checkAlerts (now : Int) (latestData : ProcessedDayData) (alerts : List Alert) :
    List Alert × List Alert :=
  let fired := alerts.filter (alertFires latestData)
  (fired.foldl (fun s a => triggerAlert now a s) alerts, fired)

/-- Iterated alert evaluation over a sequence of (now, latest record)
events: final state and concatenation of all fired lists. -/
def checkAlertsSeq : List (Int × ProcessedDayData) → List Alert → List Alert × List Alert
  | [], alerts => (alerts, [])
  | (now, latest) :: rest, alerts =>
    let step := checkAlerts now latest alerts
    let later := checkAlertsSeq rest step.1
    (later.1, step.2 ++ later.2)

/-! ### Concrete fixtures -/

/-- The candle of the spec's acceptance test: open 100, high 110, low 90,
close 105 (a candle already satisfying the OHLC ordering). -/
def candle100 : KlineData :=
  { openTime := 1640995200000, «open» := 100, high := 110, low := 90, close := 105,
    volume := 1000000, closeTime := 1640995200000, quoteAssetVolume := 0,
    numberOfTrades := 100, takerBuyBaseAssetVolume := 0, takerBuyQuoteAssetVolume := 0 }

/-- A candle whose reported high (90) is below its open (100) and low (95):
an input on which verbatim copying differs from max/min clamping. -/
def badCandle : KlineData :=
  { openTime := 0, «open» := 100, high := 90, low := 95, close := 100,
    volume := 0, closeTime := 0, quoteAssetVolume := 0,
    numberOfTrades := 0, takerBuyBaseAssetVolume := 0, takerBuyQuoteAssetVolume := 0 }

/-- The 50-record series of the spec's IndicatorEngine acceptance test:
close prices are the consecutive integers 105 + i. -/
def mkTestDay (i : Nat) : ProcessedDayData :=
  { date := i, «open» := 100 + i, high := 110 + i, low := 90 + i, close := 105 + i,
    volume := 1000000 + 1000 * i, volatility := 20, performance := 5, liquidity := 4/5,
    dayOfWeek := i % 7, weekOfYear := 1, monthOfYear := 1 }

def testSeries50 : List ProcessedDayData := (List.range 50).map mkTestDay

/-! ### C1 -/

/-- Claim C1 is false of the code: `processKlineData` copies the parsed
`high` and `low` verbatim, so on `badCandle` (reported high 90 below open
100) the processed record violates `high ≥ max(open, close, low)`. -/
theorem c1_counterexample :
    ¬ ∀ r ∈ processKlineData [badCandle],
        max r.«open» (max r.close r.low) ≤ r.high ∧
        r.low ≤ min r.«open» (min r.close r.high) := by
  decide

/-- Claim C1, amended: `processKlineData` takes `high` and `low` verbatim
from the parsed candle (no max/min over the four prices is applied), so
the record satisfies `high ≥ max(open, close, low)` and
`low ≤ min(open, close, high)` exactly when the source candle already
does. -/
theorem c1_high_low_verbatim (ks : List KlineData)
    (h : ∀ k ∈ ks, max k.«open» (max k.close k.low) ≤ k.high ∧
        k.low ≤ min k.«open» (min k.close k.high)) :
    ((processKlineData ks).map (·.high) = ks.map (·.high) ∧
     (processKlineData ks).map (·.low) = ks.map (·.low)) ∧
    ∀ r ∈ processKlineData ks,
        max r.«open» (max r.close r.low) ≤ r.high ∧
        r.low ≤ min r.«open» (min r.close r.high) := by
  refine ⟨⟨?_, ?_⟩, ?_⟩
  · simp [processKlineData, processDay]
  · simp [processKlineData, processDay]
  · intro r hr
    rcases List.mem_map.1 hr with ⟨k, hk, rfl⟩
    exact h k hk

/-- Witness for `c1_high_low_verbatim` at the single well-formed candle
`candle100`. -/
theorem c1_witness :
    ((processKlineData [candle100]).map (·.high) = [candle100].map (·.high) ∧
     (processKlineData [candle100]).map (·.low) = [candle100].map (·.low)) ∧
    ∀ r ∈ processKlineData [candle100],
        max r.«open» (max r.close r.low) ≤ r.high ∧
        r.low ≤ min r.«open» (min r.close r.high) :=
  c1_high_low_verbatim [candle100] (by decide)

/-! ### C2 -/

/-- Claim C2: in a `checkAlerts` sweep, an active, not-yet-triggered alert
fires exactly when its comparison holds — `above` is strict `>` (so a
candidate value of exactly 5 against threshold 5 does not fire while
5.01 does), `below` is strict `<`, and `equals` is `|value − threshold|`
below the fixed absolute epsilon 0.01. -/
theorem c2_alert_comparison (latest : ProcessedDayData) (a : Alert)
    (hA : a.isActive = true) (hT : a.triggeredAt = none) :
    (alertFires latest a = true ↔
      ((a.condition = .above ∧ a.threshold < currentValue a.type latest) ∨
       (a.condition = .below ∧ currentValue a.type latest < a.threshold) ∨
       (a.condition = .equals ∧ |currentValue a.type latest - a.threshold| < 1/100))) ∧
    (a.condition = .above → a.threshold = 5 →
      (currentValue a.type latest = 5 → alertFires latest a = false) ∧
      (currentValue a.type latest = 501/100 → alertFires latest a = true)) := by
  constructor
  · simp only [alertFires, hA, hT, Bool.true_and, beq_self_eq_true, Bool.and_true,
      shouldTrigger]
    cases hc : a.condition <;> simp [hc, gt_iff_lt]
  · intro hc ht
    constructor
    · intro hv
      simp [alertFires, shouldTrigger, hc, ht, hv]
    · intro hv
      simp [alertFires, shouldTrigger, hA, hT, hc, ht, hv]
      norm_num

/-- Concrete alert used in the C2 witness: volatility above 5, active,
never triggered. -/
def volAboveAlert : Alert :=
  { id := "a1", type := .volatility, condition := .above, threshold := 5,
    symbol := "BTCUSDT", timeframe := "daily", isActive := true,
    createdAt := 0, triggeredAt := none, message := "volatility above 5" }

/-- A record whose volatility is exactly `v` (other fields arbitrary). -/
def dayWithVolatility (v : ℚ) : ProcessedDayData :=
  { date := 0, «open» := 100, high := 110, low := 90, close := 105, volume := 1000000,
    volatility := v, performance := 5, liquidity := 1, dayOfWeek := 1,
    weekOfYear := 1, monthOfYear := 1 }

/-- Witness for `c2_alert_comparison`: value 5.0 exactly does not fire,
5.01 fires. -/
theorem c2_witness :
    alertFires (dayWithVolatility 5) volAboveAlert = false ∧
    alertFires (dayWithVolatility (501/100)) volAboveAlert = true :=
  ⟨((c2_alert_comparison (dayWithVolatility 5) volAboveAlert rfl rfl).2 rfl rfl).1 rfl,
   ((c2_alert_comparison (dayWithVolatility (501/100)) volAboveAlert rfl rfl).2 rfl rfl).2 rfl⟩

/-! ### C5 -/

/-- Claim C5: on the 50-record series with consecutive-integer closes
(close i = 105 + i), the only index at which `calculateTechnicalIndicators`
attaches all of sma20, sma50 and rsi is 49, and index 0 carries none of
the three. -/
theorem c5_fifty_record_series :
    (∀ i, i < 50 →
      ((((calculateTechnicalIndicators testSeries50).getD i default).sma20 ≠ none ∧
        ((calculateTechnicalIndicators testSeries50).getD i default).sma50 ≠ none ∧
        ((calculateTechnicalIndicators testSeries50).getD i default).rsi ≠ none) ↔ i = 49)) ∧
    (((calculateTechnicalIndicators testSeries50).getD 0 default).sma20 = none ∧
     ((calculateTechnicalIndicators testSeries50).getD 0 default).sma50 = none ∧
     ((calculateTechnicalIndicators testSeries50).getD 0 default).rsi = none) := by
  decide

/-- Witness for `c5_fifty_record_series` at index 49. -/
theorem c5_witness :
    ((calculateTechnicalIndicators testSeries50).getD 49 default).sma20 ≠ none ∧
    ((calculateTechnicalIndicators testSeries50).getD 49 default).sma50 ≠ none ∧
    ((calculateTechnicalIndicators testSeries50).getD 49 default).rsi ≠ none :=
  (c5_fifty_record_series.1 49 (by decide)).mpr rfl

/-! ### C3 -/

/-- An inactive or already-stamped alert never passes the firing test. -/
theorem alertFires_of_blocked (latest : ProcessedDayData) (a : Alert)
    (h : a.isActive = false ∨ a.triggeredAt ≠ none) : alertFires latest a = false := by
  rcases h with h | h
  · simp [alertFires, h]
  · simp [alertFires, h]

/-- Every alert in a `triggerAlert` result comes from the previous state,
either unchanged or with `triggeredAt` freshly stamped. -/
theorem mem_triggerAlert {now : Int} {al b : Alert} {s : List Alert}
    (hb : b ∈ triggerAlert now al s) :
    ∃ c ∈ s, b = c ∨ b = { c with triggeredAt := some now } := by
  rcases List.mem_map.1 hb with ⟨c, hc, rfl⟩
  by_cases hid : c.id = al.id
  · exact ⟨c, hc, Or.inr (by simp [hid])⟩
  · exact ⟨c, hc, Or.inl (by simp [hid])⟩

/-- Being blocked (inactive, or stamped) for a given id is preserved by any
sequence of `triggerAlert` state updates. -/
theorem blocked_preserved (now : Int) (i : String) (fas : List Alert) :
    ∀ s : List Alert,
      (∀ c ∈ s, c.id = i → (c.isActive = false ∨ c.triggeredAt ≠ none)) →
      ∀ b ∈ fas.foldl (fun s a => triggerAlert now a s) s,
        b.id = i → (b.isActive = false ∨ b.triggeredAt ≠ none) := by
  induction fas with
  | nil => intro s hs; simpa using hs
  | cons a fas ih =>
    intro s hs
    refine ih (triggerAlert now a s) ?_
    intro b hb hbi
    rcases mem_triggerAlert hb with ⟨c, hc, hbc | hbc⟩
    · rw [hbc] at hbi ⊢; exact hs c hc hbi
    · rw [hbc]; exact Or.inr (by simp)

/-- Claim C3: once every alert carrying a given id is inactive or already
stamped with a `triggeredAt` timestamp, no sequence of further
`checkAlerts` evaluations ever triggers that id again (even if its
condition still holds on the incoming data), and the alerts with that id
stay inactive-or-stamped — at-most-one-trigger-per-activation until an
explicit user reset (which is outside `checkAlerts`). -/
theorem c3_at_most_one_trigger (events : List (Int × ProcessedDayData))
    (alerts : List Alert) (i : String)
    (h : ∀ b ∈ alerts, b.id = i → (b.isActive = false ∨ b.triggeredAt ≠ none)) :
    (∀ b ∈ (checkAlertsSeq events alerts).2, b.id ≠ i) ∧
    (∀ b ∈ (checkAlertsSeq events alerts).1,
        b.id = i → (b.isActive = false ∨ b.triggeredAt ≠ none)) := by
  induction events generalizing alerts with
  | nil =>
    exact ⟨fun b hb => absurd hb (by simp [checkAlertsSeq]), by simpa [checkAlertsSeq] using h⟩
  | cons ev rest ih =>
    obtain ⟨now, latest⟩ := ev
    have hfired : ∀ b ∈ alerts.filter (alertFires latest), b.id ≠ i := by
      intro b hb hbi
      have hmem := List.mem_filter.1 hb
      have hfalse : alertFires latest b = false :=
        alertFires_of_blocked latest b (h b hmem.1 hbi)
      rw [hfalse] at hmem
      exact Bool.false_ne_true hmem.2
    have hstate : ∀ b ∈ (checkAlerts now latest alerts).1,
        b.id = i → (b.isActive = false ∨ b.triggeredAt ≠ none) :=
      blocked_preserved now i (alerts.filter (alertFires latest)) alerts h
    have ihr := ih (checkAlerts now latest alerts).1 hstate
    constructor
    · intro b hb
      simp only [checkAlertsSeq, List.mem_append] at hb
      rcases hb with hb | hb
      · exact hfired b hb
      · exact ihr.1 b hb
    · exact ihr.2

/-- Concrete already-triggered alert for the C3 witness. -/
def triggeredVolAlert : Alert := { volAboveAlert with triggeredAt := some 0 }

/-- Witness for `c3_at_most_one_trigger`: an already-stamped alert whose
condition (volatility 10 > threshold 5) still holds is not fired by a
subsequent evaluation. -/
theorem c3_witness :
    (∀ b ∈ (checkAlertsSeq [(1, dayWithVolatility 10)] [triggeredVolAlert]).2, b.id ≠ "a1") ∧
    (∀ b ∈ (checkAlertsSeq [(1, dayWithVolatility 10)] [triggeredVolAlert]).1,
        b.id = "a1" → (b.isActive = false ∨ b.triggeredAt ≠ none)) :=
  c3_at_most_one_trigger [(1, dayWithVolatility 10)] [triggeredVolAlert] "a1" (by decide)

/-! ### C9 -/

/-- Claim C9: `processKlineData` sets
`volatility = (high − low) / open × 100` and
`performance = (close − open) / open × 100` on the parsed values of every
candle, with no special case for `open = 0` (the formula is applied
unconditionally; the model's total rational division stands in for the
IEEE Infinity/NaN the formula produces there); on open 100, high 110,
low 90, close 105 this yields volatility 20 and performance 5. -/
theorem c9_volatility_performance :
    (∀ k : KlineData,
      (processDay k).volatility = ((k.high - k.low) / k.«open») * 100 ∧
      (processDay k).performance = ((k.close - k.«open») / k.«open») * 100) ∧
    (processKlineData [candle100]).map (fun r => (r.volatility, r.performance)) = [(20, 5)] := by
  refine ⟨fun k => ⟨rfl, rfl⟩, ?_⟩
  simp only [processKlineData, processDay, candle100, List.map_cons, List.map_nil,
    Prod.mk.injEq, List.cons.injEq, and_true]
  norm_num

/-! ### C7 -/

/-- Claim C7: for a series of length ≥ 20, `detectTrends` measures
`priceChange = (last close − first close) / first close × 100`, emits a
pattern exactly when `|priceChange| > 6` (the `confidence > 0.3` floor),
with confidence `min(|priceChange| / 20, 1)`, classifies uptrend iff
`priceChange > 5` and downtrend iff `priceChange < −5`, and never emits a
neutral classification. -/
theorem c7_trend_emission (data : List ProcessedDayData) (h20 : 20 ≤ data.length) :
    (detectTrends data ≠ [] ↔
      6 < |(((data.map (·.close)).getLastD 0 - (data.map (·.close)).headI) /
            (data.map (·.close)).headI) * 100|) ∧
    (∀ p ∈ detectTrends data,
      p.type = .trend ∧
      p.confidence =
        ((min (|(((data.map (·.close)).getLastD 0 - (data.map (·.close)).headI) /
              (data.map (·.close)).headI) * 100| / 20) 1 : ℚ) : ℝ) ∧
      p.metrics.performance =
        (((data.map (·.close)).getLastD 0 - (data.map (·.close)).headI) /
          (data.map (·.close)).headI) * 100 ∧
      (p.name = "Uptrend Detected" ∨ p.name = "Downtrend Detected") ∧
      (p.name = "Uptrend Detected" ↔
        5 < (((data.map (·.close)).getLastD 0 - (data.map (·.close)).headI) /
              (data.map (·.close)).headI) * 100) ∧
      (p.name = "Downtrend Detected" ↔
        (((data.map (·.close)).getLastD 0 - (data.map (·.close)).headI) /
          (data.map (·.close)).headI) * 100 < -5)) := by
  have hlen : ¬ data.length < 20 := by omega
  simp only [detectTrends, if_neg hlen]
  set pc : ℚ := (((data.map (·.close)).getLastD 0 - (data.map (·.close)).headI) /
      (data.map (·.close)).headI) * 100 with hpc
  by_cases h5 : pc > 5
  · simp only [if_pos h5]
    by_cases hc : min (|pc| / 20) 1 > (0.3 : ℚ)
    · simp only [if_pos hc]
      have h6 : 6 < |pc| := by
        have := (lt_min_iff.mp hc).1
        rw [lt_div_iff₀ (by norm_num : (0:ℚ) < 20)] at this
        calc (6:ℚ) = 0.3 * 20 := by norm_num
        _ < |pc| := this
      refine ⟨⟨fun _ => h6, fun _ => by simp⟩, ?_⟩
      intro p hp
      rw [List.mem_singleton] at hp
      subst hp
      refine ⟨rfl, rfl, rfl, Or.inl rfl, ⟨fun _ => h5, fun _ => rfl⟩, ?_⟩
      constructor
      · intro habs
        exact absurd habs (show ("Uptrend Detected" : String) ≠ "Downtrend Detected" by decide)
      · intro habs
        exact absurd h5 (by linarith)
    · simp only [if_neg hc]
      have h6 : ¬ 6 < |pc| := by
        intro h6
        apply hc
        refine lt_min ?_ (by norm_num)
        rw [lt_div_iff₀ (by norm_num : (0:ℚ) < 20)]
        calc (0.3 : ℚ) * 20 = 6 := by norm_num
        _ < |pc| := h6
      exact ⟨by simp [h6], by simp⟩
  · by_cases h5' : pc < -5
    · simp only [if_neg h5, if_pos h5']
      by_cases hc : min (|pc| / 20) 1 > (0.3 : ℚ)
      · simp only [if_pos hc]
        have h6 : 6 < |pc| := by
          have := (lt_min_iff.mp hc).1
          rw [lt_div_iff₀ (by norm_num : (0:ℚ) < 20)] at this
          calc (6:ℚ) = 0.3 * 20 := by norm_num
          _ < |pc| := this
        refine ⟨⟨fun _ => h6, fun _ => by simp⟩, ?_⟩
        intro p hp
        rw [List.mem_singleton] at hp
        subst hp
        refine ⟨rfl, rfl, rfl, Or.inr rfl, ?_, ⟨fun _ => h5', fun _ => rfl⟩⟩
        constructor
        · intro habs
          exact absurd habs (show ("Downtrend Detected" : String) ≠ "Uptrend Detected" by decide)
        · intro habs
          exact absurd habs (by linarith)
      · simp only [if_neg hc]
        have h6 : ¬ 6 < |pc| := by
          intro h6
          apply hc
          refine lt_min ?_ (by norm_num)
          rw [lt_div_iff₀ (by norm_num : (0:ℚ) < 20)]
          calc (0.3 : ℚ) * 20 = 6 := by norm_num
          _ < |pc| := h6
        exact ⟨by simp [h6], by simp⟩
    · simp only [if_neg h5, if_neg h5']
      have h6 : ¬ 6 < |pc| := by
        have : |pc| ≤ 5 := abs_le.mpr ⟨by linarith, by linarith⟩
        intro h
        linarith
      have h03 : ¬ (0 : ℚ) > 0.3 := by norm_num
      simp only [if_neg h03]
      exact ⟨by simp [h6], by simp⟩

/-- A day whose close is `c` (other fields arbitrary), for the C7 witness. -/
def trendDay (c : ℚ) : ProcessedDayData :=
  { date := 0, «open» := 100, high := 110, low := 90, close := c, volume := 1000000,
    volatility := 20, performance := 5, liquidity := 1, dayOfWeek := 1,
    weekOfYear := 1, monthOfYear := 1 }

/-- Twenty records rising from close 100 to close 110
(priceChange = 10 %, above the emission floor). -/
def trendSeries20 : List ProcessedDayData :=
  [trendDay 100, trendDay 100, trendDay 101, trendDay 101, trendDay 102,
   trendDay 102, trendDay 103, trendDay 103, trendDay 104, trendDay 104,
   trendDay 105, trendDay 105, trendDay 106, trendDay 106, trendDay 107,
   trendDay 107, trendDay 108, trendDay 108, trendDay 109, trendDay 110]

/-- Witness for `c7_trend_emission` on `trendSeries20`
(priceChange = 10 > 6: a pattern is emitted). -/
theorem c7_witness : detectTrends trendSeries20 ≠ [] := by
  have h := (c7_trend_emission trendSeries20 (by decide)).1
  apply h.mpr
  simp only [trendSeries20, trendDay, List.map_cons, List.map_nil, List.getLastD_cons]
  norm_num

/-! ### C8 -/

/-- Claim C8: `detectAllPatterns` always returns all four category lists
(every pass is a total function); on the empty series all four are empty,
and below a pass's data floor that pass returns the empty list regardless
of the data values — seasonal below 5 records, anomaly below 10, trend
below 20, cyclical below 30, and in particular every 29-record series has
an empty cyclical list. -/
theorem c8_pattern_floors :
    ((detectAllPatterns []).seasonalPatterns = [] ∧
     (detectAllPatterns []).cyclicalPatterns = [] ∧
     (detectAllPatterns []).anomalies = [] ∧
     (detectAllPatterns []).trends = []) ∧
    ∀ data : List ProcessedDayData,
      (data.length < 5 → (detectAllPatterns data).seasonalPatterns = []) ∧
      (data.length < 30 → (detectAllPatterns data).cyclicalPatterns = []) ∧
      (data.length < 10 → (detectAllPatterns data).anomalies = []) ∧
      (data.length < 20 → (detectAllPatterns data).trends = []) ∧
      (data.length = 29 → (detectAllPatterns data).cyclicalPatterns = []) := by
  have hseasonal : ∀ data : List ProcessedDayData, data.length < 5 →
      detectSeasonalPatterns data = [] := by
    intro data h
    rw [detectSeasonalPatterns, List.filterMap_eq_nil_iff]
    intro dow _
    have hlt : (data.filter (fun d => d.dayOfWeek = dow)).length < 5 :=
      lt_of_le_of_lt (List.length_filter_le _ _) h
    simp only [if_pos hlt]
  have hcyc : ∀ data : List ProcessedDayData, data.length < 30 →
      detectCyclicalPatterns data = [] := by
    intro data h
    rw [detectCyclicalPatterns, if_pos h]
  have hanom : ∀ data : List ProcessedDayData, data.length < 10 →
      detectAnomalies data = [] := by
    intro data h
    rw [detectAnomalies, if_pos h]
  have htrend : ∀ data : List ProcessedDayData, data.length < 20 →
      detectTrends data = [] := by
    intro data h
    rw [detectTrends, if_pos h]
  refine ⟨⟨hseasonal [] (by simp), hcyc [] (by simp), hanom [] (by simp), htrend [] (by simp)⟩, ?_⟩
  intro data
  exact ⟨hseasonal data, hcyc data, hanom data, htrend data,
    fun h => hcyc data (by omega)⟩

/-- A 29-record series (values irrelevant) for the C8 witness. -/
def series29 : List ProcessedDayData := (List.range 29).map mkTestDay

/-- Witness for `c8_pattern_floors`: a 29-record series yields an empty
cyclical list. -/
theorem c8_witness : (detectAllPatterns series29).cyclicalPatterns = [] :=
  (c8_pattern_floors.2 series29).2.2.2.2 (by decide)

/-! ### C4: window lemmas for the indicator engine -/

/-- A `foldl` summing `f` over a list is the initial value plus the sum of
the mapped list. -/
theorem foldl_add_map {α : Type} (f : α → ℚ) (l : List α) (c : ℚ) :
    l.foldl (fun sum d => sum + f d) c = c + (l.map f).sum := by
  induction l generalizing c with
  | nil => simp
  | cons x xs ih => simp [ih, add_assoc]

/-- Sum of a mapped list as an indexed sum over positions. -/
theorem sum_map_getD {α : Type} (f : α → ℚ) (d : α) (l : List α) :
    (l.map f).sum = ∑ k ∈ Finset.range l.length, f (l.getD k d) := by
  induction l with
  | nil => simp
  | cons x xs ih =>
    rw [List.map_cons, List.sum_cons, ih, List.length_cons, Finset.sum_range_succ']
    simp [add_comm]

theorem length_drop_take {α : Type} (l : List α) (a b : ℕ) (hab : a + b ≤ l.length) :
    ((l.drop a).take b).length = b := by
  simp only [List.length_take, List.length_drop]
  omega

/-- Position `k` of the slice `drop a / take b` is position `a + k` of the
original list (both via `getD`). -/
theorem getD_drop_take {α : Type} (l : List α) (d : α) (a b k : ℕ)
    (hk : k < b) :
    ((l.drop a).take b).getD k d = l.getD (a + k) d := by
  have h1 : ((l.drop a).take b)[k]? = (l.drop a)[k]? := by
    simp [List.getElem?_take, hk]
  have h2 : (l.drop a)[k]? = l[a + k]? := by
    simp [List.getElem?_drop]
  simp [List.getD_eq_getElem?_getD, h1, h2]

/-- Sum over a `drop a / take b` slice as an indexed sum over the window. -/
theorem slice_sum {α : Type} (f : α → ℚ) (d : α) (l : List α) (a b : ℕ)
    (hab : a + b ≤ l.length) :
    (((l.drop a).take b).map f).sum = ∑ k ∈ Finset.range b, f (l.getD (a + k) d) := by
  rw [sum_map_getD f d, length_drop_take l a b hab]
  exact Finset.sum_congr rfl (fun k hk => by
    rw [getD_drop_take l d a b k (Finset.mem_range.mp hk)])

/-- Sum of a function mapped over `List.range`. -/
theorem sum_map_range (n : ℕ) (f : ℕ → ℚ) :
    ((List.range n).map f).sum = ∑ k ∈ Finset.range n, f k := by
  rw [sum_map_getD f 0]
  simp only [List.length_range]
  exact Finset.sum_congr rfl (fun k hk => by
    rw [List.getD_eq_getElem _ _ (by simpa using Finset.mem_range.mp hk), List.getElem_range])

/-- The RSI accumulation fold splits into the sum of positive parts
(gains) and the sum of positive parts of the negated changes (losses). -/
theorem foldl_rsiStep (cs : List ℚ) (g lo : ℚ) :
    cs.foldl rsiStep (g, lo) =
      (g + (cs.map (fun c => max c 0)).sum, lo + (cs.map (fun c => max (-c) 0)).sum) := by
  induction cs generalizing g lo with
  | nil => simp
  | cons c cs ih =>
    have hstep : rsiStep (g, lo) c = (g + max c 0, lo + max (-c) 0) := by
      by_cases hc : c > 0
      · simp [rsiStep, if_pos hc, max_eq_left hc.le,
          max_eq_right (by linarith : -c ≤ 0)]
      · have hc' : c ≤ 0 := not_lt.mp hc
        simp [rsiStep, if_neg hc, max_eq_right hc',
          max_eq_left (by linarith : (0:ℚ) ≤ -c), abs_of_nonpos hc']
    rw [List.foldl_cons, hstep, ih]
    simp [add_assoc]

/-- The list of consecutive close-to-close changes over the 15-record RSI
window, as a function of positions in the original series. -/
theorem changes_drop_take (l : List ProcessedDayData) (a : ℕ) (h : a + 15 ≤ l.length) :
    List.zipWith (fun b c => b.close - c.close)
        ((l.drop a).take 15).tail ((l.drop a).take 15) =
      (List.range 14).map
        (fun k => (l.getD (a + k + 1) default).close - (l.getD (a + k) default).close) := by
  have hlen : ((l.drop a).take 15).length = 15 := length_drop_take l a 15 h
  apply List.ext_getElem
  · simp [List.length_zipWith, hlen]
  · intro k h1 h2
    rw [List.getElem_zipWith, List.getElem_map, List.getElem_range]
    have hk : k < 14 := by simpa using h2
    have hktail : k + 1 < ((l.drop a).take 15).length := by omega
    congr 1
    · rw [List.getElem_tail, List.getElem_take, List.getElem_drop,
        List.getD_eq_getElem l default (by omega)]
      congr 1
    · rw [List.getElem_take, List.getElem_drop,
        List.getD_eq_getElem l default (by omega)]

/-- `calculateTechnicalIndicators` preserves the length of its input. -/
theorem calcTech_length (data : List ProcessedDayData) :
    (calculateTechnicalIndicators data).length = data.length := by
  rw [calculateTechnicalIndicators]
  split <;> simp

/-- On a series of length ≥ 20, position `i` of the indicator output is
`indicatorsAt` applied at position `i` of the input. -/
theorem calcTech_getD (data : List ProcessedDayData) (h20 : 20 ≤ data.length)
    (i : ℕ) (hi : i < data.length) :
    (calculateTechnicalIndicators data).getD i default =
      indicatorsAt data i (data.getD i default) := by
  rw [calculateTechnicalIndicators, if_neg (by omega)]
  have hlen : (data.enum.map (fun p => indicatorsAt data p.1 p.2)).length = data.length := by
    simp
  rw [List.getD_eq_getElem _ _ (by rw [hlen]; exact hi)]
  rw [List.getElem_map, List.getElem_enum]
  rw [List.getD_eq_getElem _ _ hi]

/-- Claim C4: `calculateTechnicalIndicators` returns the series with no
indicators attached when its length is < 20; otherwise position `i`
carries the underlying record unchanged, `sma20` exactly when `i ≥ 19`
(the mean of close over `[i−19, i]`, i.e. the window sum divided by 20),
`sma50` exactly when `i ≥ 49` (window `[i−49, i]`, divided by 50), and
`rsi` exactly when `i ≥ 14` (gains and losses summed over the 14
close-to-close changes of the window `[i−14, i]`, `avgGain = gains/14`,
`avgLoss = losses/14`, `rsi = 100 − 100/(1 + avgGain/avgLoss)`), each
indicator gated independently. -/
theorem c4_indicator_windows (data : List ProcessedDayData) :
    (data.length < 20 →
      (calculateTechnicalIndicators data).map (·.day) = data ∧
      ∀ r ∈ calculateTechnicalIndicators data,
        r.sma20 = none ∧ r.sma50 = none ∧ r.rsi = none) ∧
    (20 ≤ data.length →
      (calculateTechnicalIndicators data).length = data.length ∧
      ∀ i, i < data.length →
        ((calculateTechnicalIndicators data).getD i default).day = data.getD i default ∧
        ((calculateTechnicalIndicators data).getD i default).sma20 =
          (if 19 ≤ i then
            some ((∑ j ∈ Finset.Icc (i-19) i, (data.getD j default).close) / 20)
           else none) ∧
        ((calculateTechnicalIndicators data).getD i default).sma50 =
          (if 49 ≤ i then
            some ((∑ j ∈ Finset.Icc (i-49) i, (data.getD j default).close) / 50)
           else none) ∧
        ((calculateTechnicalIndicators data).getD i default).rsi =
          (if 14 ≤ i then
            some (100 - 100 / (1 +
              ((∑ j ∈ Finset.Icc (i-13) i,
                  max ((data.getD j default).close - (data.getD (j-1) default).close) 0) / 14) /
              ((∑ j ∈ Finset.Icc (i-13) i,
                  max ((data.getD (j-1) default).close - (data.getD j default).close) 0) / 14)))
           else none)) := by
  constructor
  · intro h
    constructor
    · rw [calculateTechnicalIndicators, if_pos h, List.map_map]
      have hcomp : ((fun r : IndicatedDayData => r.day) ∘ toIndicated) = id := rfl
      rw [hcomp, List.map_id]
    · intro r hr
      rw [calculateTechnicalIndicators, if_pos h] at hr
      rcases List.mem_map.1 hr with ⟨d, _, rfl⟩
      exact ⟨rfl, rfl, rfl⟩
  · intro h20
    refine ⟨calcTech_length data, ?_⟩
    intro i hi
    rw [calcTech_getD data h20 i hi]
    refine ⟨rfl, ?_, ?_, ?_⟩
    · show (if 19 ≤ i then _ else none) = _
      by_cases h19 : 19 ≤ i
      · rw [if_pos h19, if_pos h19]
        congr 1
        have hw := foldl_add_map (fun d => d.close) ((data.drop (i - 19)).take 20) 0
        rw [hw, zero_add, slice_sum (fun d => d.close) default data (i - 19) 20 (by omega)]
        rw [← Nat.Ico_succ_right, Finset.sum_Ico_eq_sum_range]
        have he : i + 1 - (i - 19) = 20 := by omega
        rw [he]
      · rw [if_neg h19, if_neg h19]
    · show (if 49 ≤ i then _ else none) = _
      by_cases h49 : 49 ≤ i
      · rw [if_pos h49, if_pos h49]
        congr 1
        have hw := foldl_add_map (fun d => d.close) ((data.drop (i - 49)).take 50) 0
        rw [hw, zero_add, slice_sum (fun d => d.close) default data (i - 49) 50 (by omega)]
        rw [← Nat.Ico_succ_right, Finset.sum_Ico_eq_sum_range]
        have he : i + 1 - (i - 49) = 50 := by omega
        rw [he]
      · rw [if_neg h49, if_neg h49]
    · show (if 14 ≤ i then _ else none) = _
      by_cases h14 : 14 ≤ i
      · rw [if_pos h14, if_pos h14]
        have he : i + 1 - (i - 13) = 14 := by omega
        have hgains :
            (∑ k ∈ Finset.range 14,
              max ((data.getD (i - 14 + k + 1) default).close -
                   (data.getD (i - 14 + k) default).close) 0) =
            ∑ j ∈ Finset.Icc (i-13) i,
              max ((data.getD j default).close - (data.getD (j-1) default).close) 0 := by
          rw [← Nat.Ico_succ_right, Finset.sum_Ico_eq_sum_range, he]
          refine Finset.sum_congr rfl (fun k hk => ?_)
          have e2 : i - 13 + k - 1 = i - 14 + k := by omega
          have e1 : i - 13 + k = i - 14 + k + 1 := by omega
          rw [e2, e1]
        have hlosses :
            (∑ k ∈ Finset.range 14,
              max (-((data.getD (i - 14 + k + 1) default).close -
                     (data.getD (i - 14 + k) default).close)) 0) =
            ∑ j ∈ Finset.Icc (i-13) i,
              max ((data.getD (j-1) default).close - (data.getD j default).close) 0 := by
          rw [← Nat.Ico_succ_right, Finset.sum_Ico_eq_sum_range, he]
          refine Finset.sum_congr rfl (fun k hk => ?_)
          have e2 : i - 13 + k - 1 = i - 14 + k := by omega
          have e1 : i - 13 + k = i - 14 + k + 1 := by omega
          rw [neg_sub, e2, e1]
        rw [changes_drop_take data (i - 14) (by omega), foldl_rsiStep]
        dsimp only
        rw [zero_add, zero_add, List.map_map, List.map_map, sum_map_range, sum_map_range]
        dsimp only [Function.comp]
        rw [hgains, hlosses]
      · rw [if_neg h14, if_neg h14]

/-- Witness for `c4_indicator_windows` on the 50-record test series at
index 19: `sma20` is the window mean. -/
theorem c4_witness :
    ((calculateTechnicalIndicators testSeries50).getD 19 default).sma20 =
      some ((∑ j ∈ Finset.Icc 0 19, (testSeries50.getD j default).close) / 20) := by
  have h := ((c4_indicator_windows testSeries50).2 (by decide)).2 19 (by decide)
  rw [h.2.1]
  norm_num

/-! ### C6 and C10: the anomaly pass -/

/-- Above its data floor, `detectAnomalies` is the per-day pattern emission
against the two fixed thresholds. -/
theorem detectAnomalies_unfold (data : List ProcessedDayData) (h10 : 10 ≤ data.length) :
    detectAnomalies data =
      data.flatMap (anomalyPatternsFor (volatilityThresholdOf data) (volumeThresholdOf data)) := by
  rw [detectAnomalies, if_neg (by omega)]

/-- Each record contributes exactly one volatility-spike pattern when its
volatility exceeds the volatility threshold, and exactly one volume-spike
pattern when its volume exceeds the volume threshold. -/
theorem countP_anomalyPatterns (vT uT : ℝ) (l : List ProcessedDayData) :
    ((l.flatMap (anomalyPatternsFor vT uT)).countP (fun p => p.name == "Volatility Spike") =
       l.countP (fun d => decide ((d.volatility : ℝ) > vT))) ∧
    ((l.flatMap (anomalyPatternsFor vT uT)).countP (fun p => p.name == "Volume Spike") =
       l.countP (fun d => decide ((d.volume : ℝ) > uT))) := by
  induction l with
  | nil => simp
  | cons d l ih =>
    rcases Classical.em ((d.volatility : ℝ) > vT) with hA | hA <;>
      rcases Classical.em ((d.volume : ℝ) > uT) with hB | hB <;>
        simp [anomalyPatternsFor, hA, hB, List.countP_cons, List.countP_append,
          ih.1, ih.2, List.flatMap_cons]

/-- Claim C6: for a series of length ≥ 10, `detectAnomalies` uses the
thresholds mean + 2 × population stddev (separately for volatility and
volume), emits one single-day "Volatility Spike" pattern per record whose
volatility strictly exceeds the volatility threshold and, independently,
one "Volume Spike" pattern per record whose volume strictly exceeds the
volume threshold (a record can yield both), each with confidence
`min(value / threshold, 1) ≤ 1`; a record sitting at mean + 3 × stddev of
volatility (stddev > 0) is emitted with confidence ≤ 1. -/
theorem c6_anomaly_emission (data : List ProcessedDayData) (h10 : 10 ≤ data.length) :
    ((detectAnomalies data).countP (fun p => p.name == "Volatility Spike") =
       data.countP (fun d => decide ((d.volatility : ℝ) > volatilityThresholdOf data))) ∧
    ((detectAnomalies data).countP (fun p => p.name == "Volume Spike") =
       data.countP (fun d => decide ((d.volume : ℝ) > volumeThresholdOf data))) ∧
    (∀ d ∈ data, (d.volatility : ℝ) > volatilityThresholdOf data →
       ∃ p ∈ detectAnomalies data, p.type = .anomaly ∧ p.name = "Volatility Spike" ∧
         p.startDate = d.date ∧ p.endDate = d.date ∧
         p.confidence = min ((d.volatility : ℝ) / volatilityThresholdOf data) 1) ∧
    (∀ d ∈ data, (d.volume : ℝ) > volumeThresholdOf data →
       ∃ p ∈ detectAnomalies data, p.type = .anomaly ∧ p.name = "Volume Spike" ∧
         p.startDate = d.date ∧ p.endDate = d.date ∧
         p.confidence = min ((d.volume : ℝ) / volumeThresholdOf data) 1) ∧
    (∀ p ∈ detectAnomalies data, p.confidence ≤ 1) ∧
    (∀ d ∈ data,
       0 < Real.sqrt ((calculateVariance (data.map (·.volatility)) : ℚ) : ℝ) →
       (d.volatility : ℝ) = (avgVolatilityOf data : ℝ) +
         3 * Real.sqrt ((calculateVariance (data.map (·.volatility)) : ℚ) : ℝ) →
       ∃ p ∈ detectAnomalies data, p.name = "Volatility Spike" ∧ p.startDate = d.date ∧
         p.confidence ≤ 1) := by
  have hunfold := detectAnomalies_unfold data h10
  have hcount := countP_anomalyPatterns (volatilityThresholdOf data) (volumeThresholdOf data) data
  have hvolmem : ∀ d ∈ data, (d.volatility : ℝ) > volatilityThresholdOf data →
      ∃ p ∈ detectAnomalies data, p.type = .anomaly ∧ p.name = "Volatility Spike" ∧
        p.startDate = d.date ∧ p.endDate = d.date ∧
        p.confidence = min ((d.volatility : ℝ) / volatilityThresholdOf data) 1 := by
    intro d hd hgt
    refine ⟨{ type := .anomaly, name := "Volatility Spike",
              confidence := min ((d.volatility : ℝ) / volatilityThresholdOf data) 1,
              startDate := d.date, endDate := d.date,
              metrics := { volatility := d.volatility, performance := d.performance,
                           volume := d.volume } },
            ?_, rfl, rfl, rfl, rfl, rfl⟩
    rw [hunfold]
    refine List.mem_flatMap.2 ⟨d, hd, ?_⟩
    simp only [anomalyPatternsFor, if_pos hgt]
    exact List.mem_append_left _ (List.mem_singleton.2 rfl)
  have hvolumem : ∀ d ∈ data, (d.volume : ℝ) > volumeThresholdOf data →
      ∃ p ∈ detectAnomalies data, p.type = .anomaly ∧ p.name = "Volume Spike" ∧
        p.startDate = d.date ∧ p.endDate = d.date ∧
        p.confidence = min ((d.volume : ℝ) / volumeThresholdOf data) 1 := by
    intro d hd hgt
    refine ⟨{ type := .anomaly, name := "Volume Spike",
              confidence := min ((d.volume : ℝ) / volumeThresholdOf data) 1,
              startDate := d.date, endDate := d.date,
              metrics := { volatility := d.volatility, performance := d.performance,
                           volume := d.volume } },
            ?_, rfl, rfl, rfl, rfl, rfl⟩
    rw [hunfold]
    refine List.mem_flatMap.2 ⟨d, hd, ?_⟩
    simp only [anomalyPatternsFor, if_pos hgt]
    exact List.mem_append_right _ (List.mem_singleton.2 rfl)
  have hconf : ∀ p ∈ detectAnomalies data, p.confidence ≤ 1 := by
    intro p hp
    rw [hunfold] at hp
    rcases List.mem_flatMap.1 hp with ⟨d, _, hpd⟩
    rcases List.mem_append.1 hpd with h | h <;> split at h
    · rcases List.mem_singleton.1 h with rfl
      exact min_le_right _ _
    · cases h
    · rcases List.mem_singleton.1 h with rfl
      exact min_le_right _ _
    · cases h
  rw [← hunfold] at hcount
  refine ⟨hcount.1, hcount.2, hvolmem, hvolumem, hconf, ?_⟩
  intro d hd hσ hval
  have hthr : volatilityThresholdOf data = (avgVolatilityOf data : ℝ) +
      2 * Real.sqrt ((calculateVariance (data.map (·.volatility)) : ℚ) : ℝ) := rfl
  have hgt : (d.volatility : ℝ) > volatilityThresholdOf data := by
    rw [hval, hthr]
    linarith
  obtain ⟨p, hp, _, h1, h2, _, _⟩ := hvolmem d hd hgt
  exact ⟨p, hp, h1, h2, hconf p hp⟩

/-- A record with the given volatility (volume fixed at 1000), for the
anomaly-pass fixtures. -/
def mkAnomalyDay (v : ℚ) (t : Int) : ProcessedDayData :=
  { date := t, «open» := 100, high := 110, low := 90, close := 105, volume := 1000,
    volatility := v, performance := 5, liquidity := 1, dayOfWeek := 1,
    weekOfYear := 1, monthOfYear := 1 }

/-- Ten records: nine with volatility 0 and one with volatility 10, so the
volatility mean is 1, the population variance 9 (stddev 3), and the spike
record sits exactly at mean + 3 × stddev. -/
def anomalySeries10 : List ProcessedDayData :=
  [mkAnomalyDay 0 0, mkAnomalyDay 0 1, mkAnomalyDay 0 2, mkAnomalyDay 0 3, mkAnomalyDay 0 4,
   mkAnomalyDay 0 5, mkAnomalyDay 0 6, mkAnomalyDay 0 7, mkAnomalyDay 0 8, mkAnomalyDay 10 9]

theorem anomaly_avg : avgVolatilityOf anomalySeries10 = 1 := by
  norm_num [avgVolatilityOf, anomalySeries10, mkAnomalyDay]

theorem anomaly_var : calculateVariance (anomalySeries10.map (·.volatility)) = 9 := by
  norm_num [calculateVariance, anomalySeries10, mkAnomalyDay]

theorem anomaly_sqrt_var :
    Real.sqrt ((calculateVariance (anomalySeries10.map (·.volatility)) : ℚ) : ℝ) = 3 := by
  rw [anomaly_var, show (((9:ℚ):ℝ)) = (3:ℝ)^2 by norm_num]
  exact Real.sqrt_sq (by norm_num)

theorem anomaly_vthr : volatilityThresholdOf anomalySeries10 = 7 := by
  rw [volatilityThresholdOf, anomaly_sqrt_var, anomaly_avg]
  norm_num

theorem anomaly_avg_volume : avgVolumeOf anomalySeries10 = 1000 := by
  norm_num [avgVolumeOf, anomalySeries10, mkAnomalyDay]

theorem anomaly_volume_var : calculateVariance (anomalySeries10.map (·.volume)) = 0 := by
  norm_num [calculateVariance, anomalySeries10, mkAnomalyDay]

theorem anomaly_uthr : volumeThresholdOf anomalySeries10 = 1000 := by
  rw [volumeThresholdOf, anomaly_volume_var, anomaly_avg_volume]
  norm_num [Real.sqrt_zero]

/-- Witness for `c6_anomaly_emission`: in `anomalySeries10`, the record
with volatility mean + 3 × stddev = 10 is emitted as a volatility spike
with confidence ≤ 1. -/
theorem c6_witness :
    ∃ p ∈ detectAnomalies anomalySeries10,
      p.name = "Volatility Spike" ∧ p.startDate = 9 ∧ p.confidence ≤ 1 := by
  have h := (c6_anomaly_emission anomalySeries10 (by decide)).2.2.2.2.2
  obtain ⟨p, hp, h1, h2, h3⟩ := h (mkAnomalyDay 10 9) (by decide)
    (by rw [anomaly_sqrt_var]; norm_num)
    (by rw [anomaly_sqrt_var, anomaly_avg]; norm_num [mkAnomalyDay])
  exact ⟨p, hp, h1, h2, h3⟩

/-- Claim C10 (implicit): whenever an anomaly threshold is positive, every
pattern that the anomaly pass emits against it has confidence exactly 1:
emission requires value > threshold > 0, so value / threshold > 1 and the
`min(·, 1)` clamp always saturates. -/
theorem c10_anomaly_confidence_one (data : List ProcessedDayData) (h10 : 10 ≤ data.length) :
    (∀ p ∈ detectAnomalies data, p.name = "Volatility Spike" →
        0 < volatilityThresholdOf data → p.confidence = 1) ∧
    (∀ p ∈ detectAnomalies data, p.name = "Volume Spike" →
        0 < volumeThresholdOf data → p.confidence = 1) := by
  have hunfold := detectAnomalies_unfold data h10
  constructor
  · intro p hp hname hpos
    rw [hunfold] at hp
    rcases List.mem_flatMap.1 hp with ⟨d, _, hpd⟩
    rcases List.mem_append.1 hpd with h | h <;> split at h
    · rename_i hA
      rcases List.mem_singleton.1 h with rfl
      have h1 : (1:ℝ) < (d.volatility : ℝ) / volatilityThresholdOf data :=
        (one_lt_div hpos).mpr hA
      exact min_eq_right h1.le
    · cases h
    · rcases List.mem_singleton.1 h with rfl
      exact absurd hname (show ¬ ("Volume Spike" = "Volatility Spike") by decide)
    · cases h
  · intro p hp hname hpos
    rw [hunfold] at hp
    rcases List.mem_flatMap.1 hp with ⟨d, _, hpd⟩
    rcases List.mem_append.1 hpd with h | h <;> split at h
    · rcases List.mem_singleton.1 h with rfl
      exact absurd hname (show ¬ ("Volatility Spike" = "Volume Spike") by decide)
    · cases h
    · rename_i hB
      rcases List.mem_singleton.1 h with rfl
      have h1 : (1:ℝ) < (d.volume : ℝ) / volumeThresholdOf data :=
        (one_lt_div hpos).mpr hB
      exact min_eq_right h1.le
    · cases h

/-- The single pattern emitted by the anomaly pass on `anomalySeries10`:
the volatility-10 record against the threshold 7, with the code's raw
(unclamped-form) confidence expression. -/
noncomputable def spikePattern : HistoricalPattern :=
  { type := .anomaly, name := "Volatility Spike",
    confidence := min (((10:ℚ):ℝ) / 7) 1,
    startDate := 9, endDate := 9,
    metrics := { volatility := 10, performance := 5, volume := 1000 } }

theorem detectAnomalies_anomalySeries10 :
    detectAnomalies anomalySeries10 = [spikePattern] := by
  rw [detectAnomalies_unfold anomalySeries10 (by decide), anomaly_vthr, anomaly_uthr]
  norm_num [anomalySeries10, anomalyPatternsFor, mkAnomalyDay, spikePattern]

/-- Witness for `c10_anomaly_confidence_one`: the emitted pattern of
`anomalySeries10` has confidence exactly 1. -/
theorem c10_witness : spikePattern.confidence = 1 :=
  (c10_anomaly_confidence_one anomalySeries10 (by decide)).1 spikePattern
    (by rw [detectAnomalies_anomalySeries10]; exact List.mem_singleton.2 rfl)
    rfl
    (by rw [anomaly_vthr]; norm_num)

end MarketExplorer
